import Mathlib

/-!
Verification of the `TSExplorer` notebook widget (`src/mywidgets.py`).

The widget holds a pandas dataframe `self._data`, an optional selected column
name `self._selected_feature`, and an optional list of selected dates
`self._selected_dates`.  UI callbacks (dropdown change, brush-selection
change, reset button) mutate this state; `selected_data` is a derived view.

Shallow embedding conventions:
* a pandas timestamp is a `Timestamp` record of calendar fields; the
  chronological order used by `.loc` slicing is the order of `Timestamp.key`;
* a dataframe is a column-name list plus rows of `(index label, cell values)`;
* Python code that can raise (`list[1]` on a short list, `df[col]` with a
  missing column, `statistics.median_low` on empty data) is `Option`-valued;
* Python truthiness of `None` / `[]` / `""` is modelled explicitly.
-/

/-- A pandas `Timestamp` (calendar fields down to microseconds). -/
structure Timestamp where
  year : Nat
  month : Nat
  day : Nat
  hour : Nat
  minute : Nat
  second : Nat
  micro : Nat
deriving DecidableEq, Repr

/-- Chronological key of a timestamp: for in-range field values this is an
order embedding of the calendar order pandas uses to compare timestamps. -/
def Timestamp.key (t : Timestamp) : Nat :=
  ((((t.year * 100 + t.month) * 100 + t.day) * 100 + t.hour) * 100 + t.minute) * 100000000
    + t.second * 1000000 + t.micro

/-- A pandas `DataFrame`: named columns and rows `(index label, cells)`.
Each row's `cells` list is aligned with `cols`. -/
structure DataFrame where
  cols : List String
  rows : List (Timestamp × List Int)
deriving DecidableEq, Repr

/-- A pandas value that `selected_data` can return: a whole dataframe or a
single one-dimensional series (`(index label, value)` pairs). -/
inductive PdData where
  | frame (df : DataFrame)
  | series (s : List (Timestamp × Int))
deriving DecidableEq, Repr

/-- Column access `df[f]`: the series of column `f`, or `None` (KeyError)
when `f` is not a column. -/
def DataFrame.getCol (df : DataFrame) (f : String) : Option (List (Timestamp × Int)) :=
  if f ∈ df.cols then
    some (df.rows.map (fun r => (r.1, r.2.getD (df.cols.indexOf f) 0)))
  else
    none

/-- Label slicing `df.loc[a:b]` on a monotone (time-ordered) index: pandas
locates the slice by binary search, keeping the contiguous run of rows from
the first label `≥ a` through the last label `≤ b`. -/
def DataFrame.locSlice (df : DataFrame) (a b : Timestamp) : DataFrame :=
  ⟨df.cols, (df.rows.dropWhile (fun r => r.1.key < a.key)).takeWhile (fun r => r.1.key ≤ b.key)⟩

/-- The mutable state of a `TSExplorer` instance: `self._data`,
`self._selected_feature`, `self._selected_dates`. -/
structure TSState where
  _data : DataFrame
  _selected_feature : Option String
  _selected_dates : Option (List Timestamp)
deriving DecidableEq, Repr

/-- Constructor `TSExplorer.__init__`: stores the passed dataframe itself and starts with
both filters unset. -/
def TSExplorer.init (tsdf : DataFrame) : TSState :=
  ⟨tsdf, none, none⟩

/-- Method `TSExplorer.reset(selected_feature, selected_dates)`: each boolean flag
independently clears its filter.  In Python both flags default to `True`. -/
def TSExplorer.reset (s : TSState) (selected_feature selected_dates : Bool) : TSState :=
  let s1 := if selected_feature then { s with _selected_feature := none } else s
  if selected_dates then { s1 with _selected_dates := none } else s1

/-- Python truthiness of the optional string `self._selected_feature`:
`None` and `""` are falsy. -/
def pyTruthyStr : Option String → Bool
  | none => false
  | some f => !f.isEmpty

/-- Property `TSExplorer.selected_data`:
`d = self._data`; if `self._selected_dates` is truthy, re-slice by
`self._selected_dates[0]` and `[1]` (IndexError, hence `none`, on a
one-element list); if `self._selected_feature` is truthy, take that column
(KeyError, hence `none`, when it is not a column). -/
def TSExplorer.selected_data (s : TSState) : Option PdData :=
  let d? : Option DataFrame :=
    match s._selected_dates with
    | none => some s._data
    | some [] => some s._data
    | some [_] => none
    | some (a :: b :: _) => some (s._data.locSlice a b)
  match d? with
  | none => none
  | some d =>
    match s._selected_feature with
    | none => some (.frame d)
    | some f =>
      if f.isEmpty then some (.frame d)
      else (d.getCol f).map .series

/-- The date-filtering stage of `selected_data` in its non-raising cases. -/
def dateSliced (s : TSState) : DataFrame :=
  match s._selected_dates with
  | some (a :: b :: _) => s._data.locSlice a b
  | _ => s._data

/-- Modelled from the spec's words ("dataset sliced by date range (if set)
then by feature (if set)"), with the date range as an optional pair: the
spec-side view definition compared against `TSExplorer.selected_data`. -/
def specSelectedView (dates : Option (Timestamp × Timestamp)) (feature : Option String)
    (df : DataFrame) : Option PdData :=
  let d := match dates with
    | some (a, b) => df.locSlice a b
    | none => df
  match feature with
  | some f => (d.getCol f).map .series
  | none => some (.frame d)

/-- The spec's optional `(start, end)` pair read off the stored date list. -/
def datePair : Option (List Timestamp) → Option (Timestamp × Timestamp)
  | some (a :: b :: _) => some (a, b)
  | _ => none

/-- Well-formed stored dates: unset, or a list with the two entries
`selected_data` reads. -/
def datesWF : Option (List Timestamp) → Prop
  | none => True
  | some l => 2 ≤ l.length

/-- Well-formed stored feature: unset, or a truthy name of an actual column. -/
def featureWF (df : DataFrame) : Option String → Prop
  | none => True
  | some f => ¬f.isEmpty ∧ f ∈ df.cols

/-! ### Table tab (`_gen_dataframe_tab`): highlight functions -/

/-- Python builtin `min` over a column's values (raises, hence `none`, on
empty data). -/
def pymin : List Int → Option Int
  | [] => none
  | x :: xs => some (xs.foldl min x)

/-- Python builtin `max` over a column's values. -/
def pymax : List Int → Option Int
  | [] => none
  | x :: xs => some (xs.foldl max x)

/-- Model of `statistics.median_low`: sort ascending; an odd-length list yields the
middle element, an even-length list the lower of the two middle elements;
raises on empty data. -/
def median_low (l : List Int) : Option Int :=
  let s := l.insertionSort (· ≤ ·)
  if l.length = 0 then none
  else if l.length % 2 = 1 then some (s.getD (l.length / 2) 0)
  else some (s.getD (l.length / 2 - 1) 0)

/-- Function `highlight(s, func, color)`: the style list that colors exactly the
positions whose value equals `func(s)` and leaves the rest unstyled. -/
def highlight (s : List Int) (func : List Int → Option Int) (color : String) :
    Option (List String) :=
  (func s).map (fun fv => s.map (fun v =>
    if v = fv then "background-color: " ++ color else ""))

/-- The `hfuncs` dict: rule name to (highlight function, color), in the
code's insertion order. -/
def hfuncs : List (String × ((List Int → Option Int) × String)) :=
  [("min", (pymin, "red")), ("max", (pymax, "lime")), ("median", (median_low, "yellow"))]

/-- Dict lookup, `hfuncs[fname]` guarded by `fname in hfuncs`. -/
def hfuncOf (name : String) : Option ((List Int → Option Int) × String) :=
  (hfuncs.find? (fun p => p.1 == name)).map Prod.snd

/-- The values of each column of `df`, columnwise: what `Styler.apply`
(default `axis=0`) feeds to each highlight function. -/
def DataFrame.colValues (df : DataFrame) : List (List Int) :=
  (List.range df.cols.length).map (fun i => df.rows.map (fun r => r.2.getD i 0))

/-- The styled table `render_highlight` renders into the HTML widget: the
dataframe plus, for each selected rule name found in `hfuncs` (in selection
order), that rule's per-column style lists. -/
def styledRender (df : DataFrame) (ruleNames : List String) :
    DataFrame × List (List (Option (List String))) :=
  (df, (ruleNames.filterMap hfuncOf).map (fun fc =>
    df.colValues.map (fun col => highlight col fc.1 fc.2)))

/-! ### Chart tab (`_gen_series_tab`): widget state and callbacks -/

/-- The chart state the feature-selection callback mutates: `fig.title`,
`mark.x`, `mark.y`. -/
structure ChartState where
  title : String
  markX : List Timestamp
  markY : List Int
deriving DecidableEq, Repr

/-- The whole widget: explorer state, chart state, and the table tab's
rendered content (`dfhtml.value`). -/
structure WidgetState where
  explorer : TSState
  chart : ChartState
  dfhtml : DataFrame × List (List (Option (List String)))
deriving DecidableEq, Repr

/-- Callback `render_highlight(change)`: rewrites `dfhtml.value` from the current
dataframe and the newly selected rule names; nothing else changes. -/
def render_highlight (w : WidgetState) (ruleNames : List String) : WidgetState :=
  { w with dfhtml := styledRender w.explorer._data ruleNames }

/-- Callback `feature_selection_callback(change)`: stores `change.new` as the selected
feature, retitles the figure, and re-points the line mark at the new column's
index and values (`self._data[change.new]`; KeyError, hence `none`, when
`change.new` is not a column). -/
def feature_selection_callback (w : WidgetState) (new : String) : Option WidgetState :=
  (DataFrame.getCol w.explorer._data new).map (fun series =>
    { explorer := { w.explorer with _selected_feature := some new },
      chart := ⟨"Feature: " ++ new, series.map Prod.fst, series.map Prod.snd⟩,
      dfhtml := w.dfhtml })

/-- The decimal digit character of `n % 10`. -/
def digitChar (n : Nat) : Char := Char.ofNat (48 + n % 10)

/-- Two-digit zero-padded decimal rendering. -/
def pad2 (n : Nat) : List Char := [digitChar (n / 10), digitChar n]

/-- Four-digit zero-padded decimal rendering. -/
def pad4 (n : Nat) : List Char :=
  [digitChar (n / 1000), digitChar (n / 100), digitChar (n / 10), digitChar n]

/-- Six-digit zero-padded decimal rendering. -/
def pad6 (n : Nat) : List Char :=
  [digitChar (n / 100000), digitChar (n / 10000), digitChar (n / 1000),
   digitChar (n / 100), digitChar (n / 10), digitChar n]

/-- Rendering `str(ts)` for a brushed timestamp, in the ISO form the code's own comment
shows: `2000-03-11T06:51:50.089000`. -/
def Timestamp.str (t : Timestamp) : List Char :=
  pad4 t.year ++ '-' :: (pad2 t.month ++ '-' :: (pad2 t.day ++ 'T' :: (pad2 t.hour
    ++ ':' :: (pad2 t.minute ++ ':' :: (pad2 t.second ++ '.' :: pad6 t.micro)))))

/-- Whether the character list starts with a match of the regex `-\d\dT`. -/
def matchesDDT : List Char → Bool
  | c1 :: c2 :: c3 :: c4 :: _ => c1 == '-' && c2.isDigit && c3.isDigit && c4 == 'T'
  | _ => false

/-- Model of `re.split(r'-\d\dT', s)[0]`: the prefix of `s` before the first match of
`-\d\dT`, or the whole of `s` when there is no match. -/
def splitHead : List Char → List Char
  | [] => []
  | c :: cs => if matchesDDT (c :: cs) then [] else c :: splitHead cs

/-- Numeric value of a digit character. -/
def charVal (c : Char) : Nat := c.toNat - 48

/-- Model of `pd.to_datetime` on the year-month strings this code produces: parses
`YYYY-MM` to the first day of that month at midnight; `none` on any other
shape. -/
def to_datetime : List Char → Option Timestamp
  | [a, b, c, d, dash, e, f] =>
    if a.isDigit && b.isDigit && c.isDigit && d.isDigit && dash == '-'
        && e.isDigit && f.isDigit then
      some ⟨1000 * charVal a + 100 * charVal b + 10 * charVal c + charVal d,
            10 * charVal e + charVal f, 1, 0, 0, 0, 0⟩
    else none
  | _ => none

/-- One stored date: `pd.to_datetime(re.split(r'-\d\dT', str(ts))[0])`. -/
def storedDate (ts : Timestamp) : Option Timestamp :=
  to_datetime (splitHead ts.str)

/-- The `BrushIntervalSelector` state the brush callback reads: `selected`
(absent, or the brushed timestamps, already converted from an ndarray by
`.tolist()`) and `brushing`. -/
structure BrushSelector where
  selected : Option (List Timestamp)
  brushing : Bool
deriving DecidableEq, Repr

/-- Python truthiness of `tstamps`: `None` and `[]` are falsy. -/
def pyTruthyList : Option (List Timestamp) → Bool
  | none => false
  | some [] => false
  | some (_ :: _) => true

/-- Callback `brush_sel_dt_callback(change)`: when brushing has ended and the selection
is truthy, store the truncated-and-reparsed brushed dates; otherwise do
nothing. -/
def brush_sel_dt_callback (sel : BrushSelector) (s : TSState) : Option TSState :=
  if !sel.brushing && pyTruthyList sel.selected then
    ((sel.selected.getD []).mapM storedDate).map
      (fun dates => { s with _selected_dates := some dates })
  else
    some s

/-- Handler `reset_btn_click`: resets the brush selector (clearing its selection) and
then the explorer's filters, both flags at their `True` defaults. -/
def reset_btn_click (sel : BrushSelector) (s : TSState) : BrushSelector × TSState :=
  (⟨none, sel.brushing⟩, TSExplorer.reset s true true)

/-- example dataframe used by concrete witnesses -/
def ts0 (y m d : Nat) : Timestamp := ⟨y, m, d, 0, 0, 0, 0⟩

def dfEx : DataFrame :=
  ⟨["a", "b"],
   [(ts0 2020 1 1, [1, 10]), (ts0 2020 2 1, [2, 20]), (ts0 2020 3 1, [3, 30])]⟩

/-- example state with both filters set, used by concrete witnesses -/
def sBoth : TSState := ⟨dfEx, some "a", some [ts0 2020 1 1, ts0 2020 2 1]⟩

/-- example widget state with no filters set, used by concrete witnesses -/
def wEx : WidgetState := ⟨TSExplorer.init dfEx, ⟨"", [], []⟩, (dfEx, [])⟩

example : TSExplorer.selected_data (TSExplorer.init dfEx) = some (.frame dfEx) := by decide

example :
    TSExplorer.selected_data ⟨dfEx, some "a", some [ts0 2020 2 1, ts0 2020 3 1]⟩
      = some (.series [(ts0 2020 2 1, 2), (ts0 2020 3 1, 3)]) := by decide

/-! ### Helper lemmas -/

lemma digitChar_cases (n : Nat) :
    (digitChar n).isDigit = true ∧ (digitChar n == '-') = false ∧
      (digitChar n == 'T') = false ∧ (digitChar n).toNat = 48 + n % 10 := by
  have h : n % 10 < 10 := Nat.mod_lt _ (by omega)
  unfold digitChar
  revert h
  generalize n % 10 = r
  intro h
  interval_cases r <;> exact ⟨by decide, by decide, by decide, by decide⟩

lemma digitChar_isDigit (n : Nat) : (digitChar n).isDigit = true := (digitChar_cases n).1

lemma digitChar_beq_dash (n : Nat) : (digitChar n == '-') = false := (digitChar_cases n).2.1

lemma digitChar_beq_T (n : Nat) : (digitChar n == 'T') = false := (digitChar_cases n).2.2.1

lemma charVal_digitChar (n : Nat) : charVal (digitChar n) = n % 10 := by
  unfold charVal
  rw [(digitChar_cases n).2.2.2]
  omega

/-- The first `-\d\dT` match in a rendered timestamp sits at the day part, so
the split's head is the year-month prefix. -/
lemma splitHead_ym (y m d : Nat) (rest : List Char) :
    splitHead (pad4 y ++ '-' :: (pad2 m ++ '-' :: (pad2 d ++ 'T' :: rest)))
      = pad4 y ++ '-' :: pad2 m := by
  simp only [pad4, pad2, List.cons_append, List.nil_append]
  simp [splitHead, matchesDDT, digitChar_beq_dash, digitChar_beq_T, digitChar_isDigit]

/-- Parsing the rendered year-month prefix recovers the calendar fields
(mod the rendered width) at the month's first day, midnight. -/
lemma to_datetime_ym (y m : Nat) :
    to_datetime (pad4 y ++ '-' :: pad2 m)
      = some ⟨y % 10000, m % 100, 1, 0, 0, 0, 0⟩ := by
  simp only [pad4, pad2, List.cons_append, List.nil_append]
  simp [to_datetime, digitChar_isDigit, charVal_digitChar, Timestamp.mk.injEq]
  omega

/-- What one brushed timestamp is stored as: truncate its string to the
year-month prefix and reparse, giving that month's first day at midnight. -/
lemma storedDate_eq (t : Timestamp) :
    storedDate t = some ⟨t.year % 10000, t.month % 100, 1, 0, 0, 0, 0⟩ := by
  unfold storedDate Timestamp.str
  rw [splitHead_ym, to_datetime_ym]

lemma mapM_storedDate (l : List Timestamp)
    (h : ∀ t ∈ l, t.year < 10000 ∧ t.month < 100) :
    l.mapM storedDate
      = some (l.map (fun t => (⟨t.year, t.month, 1, 0, 0, 0, 0⟩ : Timestamp))) := by
  induction l with
  | nil => rfl
  | cons t ts ih =>
    have h1 := h t (by simp)
    have h2 : ∀ x ∈ ts, x.year < 10000 ∧ x.month < 100 := fun x hx => h x (by simp [hx])
    rw [List.mapM_cons, storedDate_eq, ih h2]
    simp [Nat.mod_eq_of_lt h1.1, Nat.mod_eq_of_lt h1.2]

/-- On rows all at or after `a`, sorted by key, `takeWhile (≤ b)` is the
range filter. -/
lemma takeWhile_eq_filter_sorted (a b : Timestamp) (rows : List (Timestamp × List Int))
    (hp : rows.Pairwise (fun r1 r2 => r1.1.key ≤ r2.1.key))
    (hge : ∀ r ∈ rows, a.key ≤ r.1.key) :
    rows.takeWhile (fun r => r.1.key ≤ b.key)
      = rows.filter (fun r => a.key ≤ r.1.key && r.1.key ≤ b.key) := by
  induction rows with
  | nil => rfl
  | cons r t ih =>
    rw [List.pairwise_cons] at hp
    have ha : a.key ≤ r.1.key := hge r (by simp)
    rw [List.takeWhile_cons, List.filter_cons]
    by_cases hrb : r.1.key ≤ b.key
    · simp only [hrb, ha, decide_True, Bool.true_and, if_true, List.cons.injEq, true_and]
      exact ih hp.2 (fun x hx => hge x (by simp [hx]))
    · have hfil : t.filter (fun r => a.key ≤ r.1.key && r.1.key ≤ b.key) = [] := by
        refine List.filter_eq_nil_iff.mpr (fun x hx => ?_)
        have hx' : r.1.key ≤ x.1.key := hp.1 x hx
        simp only [Bool.and_eq_true, decide_eq_true_eq, not_and]
        intro _
        omega
      simp [hrb, hfil]

/-- On a sorted index, the `dropWhile`/`takeWhile` contiguous slice is the
inclusive range filter. -/
lemma slice_rows_eq_filter (a b : Timestamp) (rows : List (Timestamp × List Int))
    (hp : rows.Pairwise (fun r1 r2 => r1.1.key ≤ r2.1.key)) :
    (rows.dropWhile (fun r => r.1.key < a.key)).takeWhile (fun r => r.1.key ≤ b.key)
      = rows.filter (fun r => a.key ≤ r.1.key && r.1.key ≤ b.key) := by
  induction rows with
  | nil => rfl
  | cons r t ih =>
    rw [List.pairwise_cons] at hp
    by_cases hra : r.1.key < a.key
    · have hna : ¬a.key ≤ r.1.key := by omega
      rw [List.dropWhile_cons, if_pos (by simpa using hra), List.filter_cons, ih hp.2]
      simp [hna]
    · have ha : a.key ≤ r.1.key := by omega
      rw [List.dropWhile_cons, if_neg (by simpa using hra)]
      refine takeWhile_eq_filter_sorted a b (r :: t) (List.pairwise_cons.mpr hp)
        (fun x hx => ?_)
      rcases List.mem_cons.mp hx with hx | hx
      · subst hx; exact ha
      · exact le_trans ha (hp.1 x hx)

/-- Slicing `df.locSlice` on a time-ordered index keeps exactly the rows with label
in `[a, b]`. -/
lemma locSlice_rows (df : DataFrame) (a b : Timestamp)
    (hp : df.rows.Pairwise (fun r1 r2 => r1.1.key ≤ r2.1.key)) :
    (df.locSlice a b).rows
      = df.rows.filter (fun r => a.key ≤ r.1.key && r.1.key ≤ b.key) :=
  slice_rows_eq_filter a b df.rows hp

/-- Python `min` returns a member of the data that bounds every value from
below. -/
lemma foldl_min_spec (xs : List Int) : ∀ x : Int,
    xs.foldl min x ∈ x :: xs ∧ ∀ y ∈ x :: xs, xs.foldl min x ≤ y := by
  induction xs with
  | nil =>
    intro x
    refine ⟨by simp, fun y hy => ?_⟩
    simp only [List.foldl_nil]
    rcases List.mem_cons.mp hy with hy | hy
    · omega
    · cases hy
  | cons z zs ih =>
    intro x
    obtain ⟨hmem, hle⟩ := ih (min x z)
    rw [List.foldl_cons]
    constructor
    · rcases List.mem_cons.mp hmem with hm | hm
      · rw [hm]
        rcases min_choice x z with hc | hc
        · rw [hc]; exact List.mem_cons_self _ _
        · rw [hc]; exact List.mem_cons_of_mem _ (List.mem_cons_self _ _)
      · exact List.mem_cons_of_mem _ (List.mem_cons_of_mem _ hm)
    · intro y hy
      rcases List.mem_cons.mp hy with hy | hy
      · subst hy
        exact le_trans (hle (min y z) (List.mem_cons_self _ _)) (min_le_left _ _)
      rcases List.mem_cons.mp hy with hy | hy
      · subst hy
        exact le_trans (hle (min x y) (List.mem_cons_self _ _)) (min_le_right _ _)
      · exact hle y (List.mem_cons_of_mem _ hy)

/-- Python `max` returns a member of the data that bounds every value from
above. -/
lemma foldl_max_spec (xs : List Int) : ∀ x : Int,
    xs.foldl max x ∈ x :: xs ∧ ∀ y ∈ x :: xs, y ≤ xs.foldl max x := by
  induction xs with
  | nil =>
    intro x
    refine ⟨by simp, fun y hy => ?_⟩
    simp only [List.foldl_nil]
    rcases List.mem_cons.mp hy with hy | hy
    · omega
    · cases hy
  | cons z zs ih =>
    intro x
    obtain ⟨hmem, hle⟩ := ih (max x z)
    rw [List.foldl_cons]
    constructor
    · rcases List.mem_cons.mp hmem with hm | hm
      · rw [hm]
        rcases max_choice x z with hc | hc
        · rw [hc]; exact List.mem_cons_self _ _
        · rw [hc]; exact List.mem_cons_of_mem _ (List.mem_cons_self _ _)
      · exact List.mem_cons_of_mem _ (List.mem_cons_of_mem _ hm)
    · intro y hy
      rcases List.mem_cons.mp hy with hy | hy
      · subst hy
        exact le_trans (le_max_left _ _) (hle (max y z) (List.mem_cons_self _ _))
      rcases List.mem_cons.mp hy with hy | hy
      · subst hy
        exact le_trans (le_max_right _ _) (hle (max x y) (List.mem_cons_self _ _))
      · exact hle y (List.mem_cons_of_mem _ hy)

/-- Fact: `statistics.median_low` returns a member of the data. -/
lemma median_low_mem (l : List Int) (t : Int) (h : median_low l = some t) : t ∈ l := by
  unfold median_low at h
  by_cases h0 : l.length = 0
  · simp [h0] at h
  · rw [if_neg h0] at h
    have hlen : (l.insertionSort (· ≤ ·)).length = l.length :=
      List.length_insertionSort _ l
    have hmem : ∀ i, i < l.length → (l.insertionSort (· ≤ ·)).getD i 0 ∈ l := by
      intro i hi
      have hi' : i < (l.insertionSort (· ≤ ·)).length := by omega
      rw [List.getD_eq_getElem _ _ hi']
      exact (List.mem_insertionSort _).mp (List.getElem_mem hi')
    by_cases hodd : l.length % 2 = 1
    · rw [if_pos hodd] at h
      obtain rfl := Option.some.inj h
      exact hmem _ (by omega)
    · rw [if_neg hodd] at h
      obtain rfl := Option.some.inj h
      exact hmem _ (by omega)

/-! ### Claim theorems -/

/-- C1: for every dataset and well-formed filter state, `selected_data` is
the dataset sliced by the selected date range (when one is set) and then
restricted to the selected feature (when one is set), in that order; with
neither filter set it is the full dataset unchanged. -/
theorem selected_data_is_spec_view (s : TSState)
    (hd : datesWF s._selected_dates) (hf : featureWF s._data s._selected_feature) :
    TSExplorer.selected_data s
        = specSelectedView (datePair s._selected_dates) s._selected_feature s._data ∧
      (s._selected_dates = none → s._selected_feature = none →
        TSExplorer.selected_data s = some (.frame s._data)) := by
  have main : TSExplorer.selected_data s
      = specSelectedView (datePair s._selected_dates) s._selected_feature s._data := by
    rcases hds : s._selected_dates with _ | l
    · rcases hfs : s._selected_feature with _ | f
      · simp [TSExplorer.selected_data, specSelectedView, datePair, hds, hfs]
      · rw [hfs] at hf
        simp only [featureWF] at hf
        have hne : f.isEmpty = false := by
          cases hb : f.isEmpty
          · rfl
          · exact absurd hb hf.1
        simp [TSExplorer.selected_data, specSelectedView, datePair, hds, hfs, hne]
    · rw [hds] at hd
      simp only [datesWF] at hd
      rcases l with _ | ⟨a, _ | ⟨b, rest⟩⟩
      · simp at hd
      · simp at hd
      · rcases hfs : s._selected_feature with _ | f
        · simp [TSExplorer.selected_data, specSelectedView, datePair, hds, hfs]
        · rw [hfs] at hf
          simp only [featureWF] at hf
          have hne : f.isEmpty = false := by
            cases hb : f.isEmpty
            · rfl
            · exact absurd hb hf.1
          simp [TSExplorer.selected_data, specSelectedView, datePair, hds, hfs, hne]
  refine ⟨main, fun hdn hfn => ?_⟩
  simp [TSExplorer.selected_data, hdn, hfn]

theorem selected_data_is_spec_view_witness :
    TSExplorer.selected_data sBoth
      = specSelectedView (datePair sBoth._selected_dates) sBoth._selected_feature
          sBoth._data :=
  (selected_data_is_spec_view sBoth (by show 2 ≤ 2; omega)
    (by exact ⟨by decide, by decide⟩)).1

/-- C2 counterexample: on a state with both filters set,
`reset(selected_feature=True)` — with `selected_dates` left at its `True`
default — clears the date range too, instead of leaving it intact as the
claim states. -/
theorem reset_default_also_clears_dates :
    sBoth._selected_dates ≠ none ∧
      (TSExplorer.reset sBoth true true)._selected_dates = none := by decide

/-- C2 (amended): with both filters set, `reset(selected_feature=True)` and
no other arguments clears the feature and the date range (the
`selected_dates` flag defaults to `True`); clearing only the feature while
keeping the date range requires passing `selected_dates=False`. -/
theorem reset_feature_flag_behavior (s : TSState)
    (hf : s._selected_feature ≠ none) (hd : s._selected_dates ≠ none) :
    (TSExplorer.reset s true true)._selected_feature = none ∧
      (TSExplorer.reset s true true)._selected_dates = none ∧
      (TSExplorer.reset s true false)._selected_feature = none ∧
      (TSExplorer.reset s true false)._selected_dates = s._selected_dates := by
  unfold TSExplorer.reset
  simp

theorem reset_feature_flag_behavior_witness :
    (TSExplorer.reset sBoth true false)._selected_feature = none ∧
      (TSExplorer.reset sBoth true false)._selected_dates = sBoth._selected_dates :=
  ⟨(reset_feature_flag_behavior sBoth (by decide) (by decide)).2.2.1,
   (reset_feature_flag_behavior sBoth (by decide) (by decide)).2.2.2⟩

/-- C3: `reset()` with both flags at their `True` defaults sets both filters
to `None`; in general `reset(f, d)` clears the feature filter iff `f` is
true and the date filter iff `d` is true, leaving a filter whose flag is
false unchanged. -/
theorem reset_clears_filters_iff (s : TSState) (f d : Bool) :
    (TSExplorer.reset s f d)._selected_feature
        = (if f then none else s._selected_feature) ∧
      (TSExplorer.reset s f d)._selected_dates
        = (if d then none else s._selected_dates) ∧
      (TSExplorer.reset s true true)._selected_feature = none ∧
      (TSExplorer.reset s true true)._selected_dates = none := by
  unfold TSExplorer.reset
  cases f <;> cases d <;> simp

/-- C5: with a truthy selected feature that names a column (and well-formed
dates), `selected_data` returns a one-dimensional series — exactly that
column of the date-filtered data — not a multi-column frame. -/
theorem selected_data_feature_is_series (s : TSState) (f : String)
    (hfs : s._selected_feature = some f) (hne : f.isEmpty = false)
    (hcol : f ∈ s._data.cols) (hd : datesWF s._selected_dates) :
    ∃ ser, TSExplorer.selected_data s = some (.series ser) ∧
      DataFrame.getCol (dateSliced s) f = some ser := by
  have hslice : TSExplorer.selected_data s
      = (DataFrame.getCol (dateSliced s) f).map PdData.series := by
    rcases hds : s._selected_dates with _ | l
    · simp [TSExplorer.selected_data, dateSliced, hds, hfs, hne]
    · rw [hds] at hd
      simp only [datesWF] at hd
      rcases l with _ | ⟨a, _ | ⟨b, rest⟩⟩
      · simp at hd
      · simp at hd
      · simp [TSExplorer.selected_data, dateSliced, hds, hfs, hne]
  have hcols : (dateSliced s).cols = s._data.cols := by
    unfold dateSliced
    rcases s._selected_dates with _ | l
    · rfl
    · rcases l with _ | ⟨a, _ | ⟨b, rest⟩⟩ <;> rfl
  rw [hslice]
  unfold DataFrame.getCol
  rw [if_pos (by rw [hcols]; exact hcol)]
  exact ⟨_, rfl, rfl⟩

theorem selected_data_feature_is_series_witness :
    ∃ ser, TSExplorer.selected_data sBoth = some (.series ser) ∧
      DataFrame.getCol (dateSliced sBoth) "a" = some ser :=
  selected_data_feature_is_series sBoth "a" rfl rfl (by decide) (by show 2 ≤ 2; omega)

/-- C6: the brush callback leaves the state (in particular the selected date
range) unchanged whenever the selector is still brushing, or the selection
is absent or empty. -/
theorem brush_callback_noop_unless_ended_nonempty (sel : BrushSelector) (s : TSState)
    (h : sel.brushing = true ∨ sel.selected = none ∨ sel.selected = some []) :
    brush_sel_dt_callback sel s = some s := by
  unfold brush_sel_dt_callback
  rcases h with h | h | h
  · simp [h]
  · simp [h, pyTruthyList]
  · simp [h, pyTruthyList]

theorem brush_callback_noop_witness :
    brush_sel_dt_callback ⟨some [ts0 2020 5 7], true⟩ sBoth = some sBoth :=
  brush_callback_noop_unless_ended_nonempty _ _ (Or.inl rfl)

/-- C4: on a time-ordered row index with a set date range, `selected_data`
contains exactly the dataset rows whose index label lies within
`[start, end]`, inclusive at both boundaries: as a frame of exactly those
rows when no feature is set, and as that column of exactly those rows when a
truthy column feature is set. -/
theorem selected_data_date_range_rows (s : TSState) (a b : Timestamp)
    (rest : List Timestamp)
    (hsorted : s._data.rows.Pairwise (fun r1 r2 => r1.1.key ≤ r2.1.key))
    (hds : s._selected_dates = some (a :: b :: rest)) :
    (s._selected_feature = none →
      TSExplorer.selected_data s = some (.frame ⟨s._data.cols,
        s._data.rows.filter (fun r => a.key ≤ r.1.key && r.1.key ≤ b.key)⟩)) ∧
      (∀ f, s._selected_feature = some f → f.isEmpty = false → f ∈ s._data.cols →
        TSExplorer.selected_data s = some (.series
          ((s._data.rows.filter (fun r => a.key ≤ r.1.key && r.1.key ≤ b.key)).map
            (fun r => (r.1, r.2.getD (s._data.cols.indexOf f) 0))))) := by
  have h1 : s._data.locSlice a b
      = ⟨s._data.cols, s._data.rows.filter (fun r => a.key ≤ r.1.key && r.1.key ≤ b.key)⟩ := by
    unfold DataFrame.locSlice
    exact congrArg (DataFrame.mk s._data.cols) (slice_rows_eq_filter a b s._data.rows hsorted)
  constructor
  · intro hfn
    simp [TSExplorer.selected_data, hds, hfn, h1]
  · intro f hfs hne hcol
    simp [TSExplorer.selected_data, hds, hfs, hne, h1, DataFrame.getCol, hcol]

theorem selected_data_date_range_rows_witness :
    TSExplorer.selected_data ⟨dfEx, none, some [ts0 2020 1 15, ts0 2020 3 1]⟩
      = some (.frame ⟨dfEx.cols, dfEx.rows.filter
          (fun r => (ts0 2020 1 15).key ≤ r.1.key && r.1.key ≤ (ts0 2020 3 1).key)⟩) :=
  (selected_data_date_range_rows ⟨dfEx, none, some [ts0 2020 1 15, ts0 2020 3 1]⟩
    (ts0 2020 1 15) (ts0 2020 3 1) [] (by decide) rfl).1 rfl

/-- C7 counterexample: besides retitling the chart and re-pointing the line
data, the dropdown callback also mutates the stored selected feature, so it
does have a further side effect on the widget state. -/
theorem feature_callback_extra_side_effect :
    (feature_selection_callback wEx "a").map (fun w => w.explorer._selected_feature)
        = some (some "a") ∧
      wEx.explorer._selected_feature = none := by decide

/-- C7 (amended): for a dropdown change to an existing column, the callback
retitles the chart, re-points the line data at the chosen column, and records
that column as the selected feature; nothing else changes — in particular the
dataset, the selected date range, and the table rendering are unchanged. -/
theorem feature_callback_effects (w : WidgetState) (new : String)
    (hcol : new ∈ w.explorer._data.cols) :
    ∃ series, DataFrame.getCol w.explorer._data new = some series ∧
      feature_selection_callback w new = some
        ⟨⟨w.explorer._data, some new, w.explorer._selected_dates⟩,
         ⟨"Feature: " ++ new, series.map Prod.fst, series.map Prod.snd⟩,
         w.dfhtml⟩ := by
  unfold feature_selection_callback DataFrame.getCol
  rw [if_pos hcol]
  exact ⟨_, rfl, rfl⟩

theorem feature_callback_effects_witness :
    ∃ series, DataFrame.getCol wEx.explorer._data "b" = some series ∧
      feature_selection_callback wEx "b" = some
        ⟨⟨wEx.explorer._data, some "b", wEx.explorer._selected_dates⟩,
         ⟨"Feature: " ++ "b", series.map Prod.fst, series.map Prod.snd⟩,
         wEx.dfhtml⟩ :=
  feature_callback_effects wEx "b" (by decide)

/-- C9: the constructor stores the passed dataframe itself (no copy is
modelled or needed), and every state-mutating operation — `reset`, the brush
callback, the dropdown callback, the highlight callback, the reset button —
leaves the stored dataset unchanged; the property readers are pure functions
of the state. -/
theorem dataset_stored_and_never_mutated (tsdf : DataFrame) (s : TSState)
    (f d : Bool) (sel : BrushSelector) (w : WidgetState) (ruleNames : List String)
    (new : String) :
    (TSExplorer.init tsdf)._data = tsdf ∧
      (TSExplorer.reset s f d)._data = s._data ∧
      ((brush_sel_dt_callback sel s).getD s)._data = s._data ∧
      ((feature_selection_callback w new).getD w).explorer._data = w.explorer._data ∧
      (render_highlight w ruleNames).explorer._data = w.explorer._data ∧
      ((reset_btn_click sel s).2)._data = s._data := by
  refine ⟨rfl, ?_, ?_, ?_, rfl, rfl⟩
  · unfold TSExplorer.reset
    cases f <;> cases d <;> rfl
  · unfold brush_sel_dt_callback
    by_cases hb : (!sel.brushing && pyTruthyList sel.selected) = true
    · rw [if_pos hb]
      cases hm : (sel.selected.getD []).mapM storedDate <;> simp [hm]
    · rw [if_neg hb]
      rfl
  · cases hc : DataFrame.getCol w.explorer._data new <;>
      simp [feature_selection_callback, hc]

/-- The style list `highlight` produces once its rule function succeeds:
cell-aligned, rule color exactly at matching positions. -/
lemma highlight_styles (l : List Int) (func : List Int → Option Int) (color : String)
    (target : Int) (hf : func l = some target) :
    highlight l func color
        = some (l.map (fun v => if v = target then "background-color: " ++ color else "")) ∧
      (l.map (fun v => if v = target then "background-color: " ++ color else "")).length
        = l.length ∧
      ∀ i, i < l.length →
        (l.map (fun v => if v = target then "background-color: " ++ color else "")).getD i ""
          = if l.getD i 0 = target then "background-color: " ++ color else "" := by
  refine ⟨by rw [highlight, hf]; rfl, by simp, fun i hi => ?_⟩
  have hi' : i < (l.map
      (fun v => if v = target then "background-color: " ++ color else "")).length := by
    simpa using hi
  rw [List.getD_eq_getElem _ _ hi', List.getD_eq_getElem _ _ hi, List.getElem_map]

/-- C8: each of the three highlight rules recolors exactly the matching
cells: on any non-empty column the rule's function succeeds, the style list
is cell-aligned, a cell's style is `background-color: <rule color>` exactly
when its value equals the rule's target — the column minimum, the maximum,
or the low median (always a member of the column) respectively — and the
empty style everywhere else. -/
theorem highlight_rules_style_matching_cells (name : String)
    (func : List Int → Option Int) (color : String) (l : List Int)
    (hrule : (name, (func, color)) ∈ hfuncs) (hne : l ≠ []) :
    ∃ target styles, func l = some target ∧ highlight l func color = some styles ∧
      styles.length = l.length ∧
      (∀ i, i < l.length →
        styles.getD i "" = if l.getD i 0 = target
          then "background-color: " ++ color else "") ∧
      target ∈ l ∧
      (name = "min" → ∀ x ∈ l, target ≤ x) ∧
      (name = "max" → ∀ x ∈ l, x ≤ target) ∧
      (name = "median" → median_low l = some target) := by
  simp only [hfuncs, List.mem_cons, List.not_mem_nil, or_false, Prod.mk.injEq] at hrule
  rcases l with _ | ⟨x, xs⟩
  · exact absurd rfl hne
  rcases hrule with ⟨h1, h2, h3⟩ | ⟨h1, h2, h3⟩ | ⟨h1, h2, h3⟩ <;> subst h1 <;> subst h2 <;>
    subst h3
  · obtain ⟨hmem, hle⟩ := foldl_min_spec xs x
    obtain ⟨hstyles, hlen, hpos⟩ := highlight_styles (x :: xs) pymin "red" (xs.foldl min x) rfl
    exact ⟨_, _, rfl, hstyles, hlen, hpos, hmem, fun _ => hle,
      fun hc => absurd hc (by decide), fun hc => absurd hc (by decide)⟩
  · obtain ⟨hmem, hle⟩ := foldl_max_spec xs x
    obtain ⟨hstyles, hlen, hpos⟩ := highlight_styles (x :: xs) pymax "lime" (xs.foldl max x) rfl
    exact ⟨_, _, rfl, hstyles, hlen, hpos, hmem, fun hc => absurd hc (by decide),
      fun _ => hle, fun hc => absurd hc (by decide)⟩
  · have h0 : ¬(x :: xs).length = 0 := by simp
    obtain ⟨t, ht⟩ : ∃ t, median_low (x :: xs) = some t := by
      simp only [median_low, h0, if_false]
      split
      · exact ⟨_, rfl⟩
      · exact ⟨_, rfl⟩
    obtain ⟨hstyles, hlen, hpos⟩ := highlight_styles (x :: xs) median_low "yellow" t ht
    exact ⟨_, _, ht, hstyles, hlen, hpos, median_low_mem _ _ ht,
      fun hc => absurd hc (by decide), fun hc => absurd hc (by decide), fun _ => ht⟩

theorem highlight_rules_style_matching_cells_witness :
    ∃ target styles, pymin [3, 1, 2] = some target ∧
      highlight [3, 1, 2] pymin "red" = some styles ∧
      styles.length = ([3, 1, 2] : List Int).length ∧
      (∀ i, i < ([3, 1, 2] : List Int).length →
        styles.getD i "" = if ([3, 1, 2] : List Int).getD i 0 = target
          then "background-color: " ++ "red" else "") ∧
      target ∈ ([3, 1, 2] : List Int) ∧
      ("min" = "min" → ∀ x ∈ ([3, 1, 2] : List Int), target ≤ x) ∧
      ("min" = "max" → ∀ x ∈ ([3, 1, 2] : List Int), x ≤ target) ∧
      ("min" = "median" → median_low [3, 1, 2] = some target) :=
  highlight_rules_style_matching_cells "min" pymin "red" [3, 1, 2]
    (by unfold hfuncs; exact List.mem_cons_self _ _) (by decide)

/-- C10: an accepted brush selection does not store the brushed timestamps
themselves: each stored date is the year-month prefix of the timestamp's
string form reparsed — a month-start timestamp (day 1, midnight) — with one
stored entry per brushed timestamp; and `selected_data` reads only the first
two stored entries. -/
theorem brush_stores_month_starts (sel : BrushSelector) (s : TSState)
    (t0 : Timestamp) (l : List Timestamp)
    (hbr : sel.brushing = false) (hsel : sel.selected = some (t0 :: l))
    (hval : ∀ t ∈ t0 :: l, t.year < 10000 ∧ t.month < 100) :
    brush_sel_dt_callback sel s = some
        { s with _selected_dates := some ((t0 :: l).map
            (fun t => (⟨t.year, t.month, 1, 0, 0, 0, 0⟩ : Timestamp))) } ∧
      ((t0 :: l).map (fun t => (⟨t.year, t.month, 1, 0, 0, 0, 0⟩ : Timestamp))).length
        = (t0 :: l).length ∧
      (∀ a b rest2, TSExplorer.selected_data ⟨s._data, s._selected_feature,
            some (a :: b :: rest2)⟩
          = TSExplorer.selected_data ⟨s._data, s._selected_feature, some [a, b]⟩) := by
  refine ⟨?_, by simp, fun a b rest2 => rfl⟩
  unfold brush_sel_dt_callback
  simp only [hbr, hsel, pyTruthyList, Bool.not_false, Bool.true_and, if_true,
    Option.getD_some]
  rw [mapM_storedDate _ hval]
  rfl

theorem brush_stores_month_starts_witness :
    brush_sel_dt_callback
        ⟨some [⟨2000, 3, 11, 6, 51, 50, 89000⟩, ⟨2001, 7, 2, 0, 0, 0, 0⟩], false⟩ sBoth
      = some ⟨dfEx, some "a",
          some [⟨2000, 3, 1, 0, 0, 0, 0⟩, ⟨2001, 7, 1, 0, 0, 0, 0⟩]⟩ :=
  (brush_stores_month_starts _ sBoth ⟨2000, 3, 11, 6, 51, 50, 89000⟩
    [⟨2001, 7, 2, 0, 0, 0, 0⟩] rfl rfl (by decide)).1
